import Mathlib

/-!
Verification of the MDUS processing backbone: the Redis-backed job queue
(`app/services/queue_service.py`) and the document processing worker
(`app/services/processing_worker.py`), embedded shallowly.

Modelling conventions:
* a Redis sorted set (zset) is an association list of member/score pairs with
  unique members; `zrange 0 0` returns the entry minimal by score, ties broken
  by lexicographic member order (the Redis ordering for equal scores);
* timestamps (`datetime.utcnow()` and its isoformat strings) are natural
  numbers passed in as a `now` parameter; only set/unset and ordering matter;
* Python floats are embedded as rationals (the arithmetic of the quality and
  confidence computations is exact at every value the theorems touch);
* the job store is an association list from job id to record; absence of a key
  models a missing or TTL-expired record;
* each `await redis.X` call in the source is one atomic step, which is what
  lets the interleaving of two dequeues be stated faithfully.
-/

namespace MDUS

/-- Redis sorted set: member/score pairs. -/

abbrev ZSet := List (String × Int)

/-- Executable lexicographic comparison of char lists by code point: the
order Redis applies to members with equal scores (byte order; the job ids
here are ASCII uuid strings, for which the two coincide). -/

def charListLt : List Char → List Char → Bool
  | _, [] => false
  | [], _ :: _ => true
  | c :: cs, d :: ds =>
    if c.toNat < d.toNat then true
    else if d.toNat < c.toNat then false
    else charListLt cs ds

/-- Lexicographic member order on strings. -/

def strLt (a b : String) : Prop := charListLt a.data b.data = true

instance (a b : String) : Decidable (strLt a b) := by
  unfold strLt; infer_instance

/-- Strict ordering used by the sorted set: ascending score, equal scores
ordered lexicographically by member. -/

def zkeyLt (a b : String × Int) : Prop :=
  a.2 < b.2 ∨ (a.2 = b.2 ∧ strLt a.1 b.1)

instance (a b : String × Int) : Decidable (zkeyLt a b) := by
  unfold zkeyLt; infer_instance

/-- ZADD: set the score of the member (replacing any existing entry). -/

def zadd (l : ZSet) (m : String) (s : Int) : ZSet :=
  l.filter (fun p => p.1 != m) ++ [(m, s)]

/-- ZREM: drop the member. -/

def zrem (l : ZSet) (m : String) : ZSet :=
  l.filter (fun p => p.1 != m)

/-- Member set of a zset. -/

def zmembers (l : ZSet) : List String := l.map Prod.fst

/-- ZSCORE: score of a member, when present. -/

def zscore (l : ZSet) (m : String) : Option Int :=
  (l.find? (fun p => p.1 == m)).map Prod.snd

/-- Fold computing the entry minimal in `zkeyLt` order. -/

def zminFold (best : String × Int) : ZSet → String × Int
  | [] => best
  | y :: ys => zminFold (if zkeyLt y best then y else best) ys

/-- ZRANGE 0 0: the head of the sorted set, i.e. the entry with the least
score, ties broken by member. -/

def zmin : ZSet → Option (String × Int)
  | [] => none
  | x :: xs => some (zminFold x xs)

/-!
Result payloads of the worker pipeline (`processing_worker.py`). Each mirrors
the dict built by the corresponding step; the `error` field is set exactly on
the except branch of the step.
-/

/-- Payload of `_classify_document`: the AI response on success, or the
fallback dict of the except branch. -/

structure ClassifyResult where
  document_type : String
  confidence : ℚ
  error : Option String := none
deriving DecidableEq

/-- Payload of `_extract_text`. -/

structure ExtractResult where
  text : String
  confidence : ℚ
  page_count : Nat := 1
  error : Option String := none
deriving DecidableEq

/-- Payload of `_extract_medical_entities`; entity payloads are opaque. -/

structure EntityResult where
  entities : List String
  entity_count : Nat
  confidence : ℚ
  error : Option String := none
deriving DecidableEq

/-- Payload of `_assess_quality` (success branch; the except branch is
unreachable for the total embedded computation). -/

structure QualityResult where
  quality_score : ℚ
  text_length : Nat
  extraction_confidence : ℚ
  quality_issues : List String
  assessment : String
deriving DecidableEq

/-- The `processing_result` dict assembled by `_process_document`. Optional
fields are present exactly when the corresponding step ran; `file_info` and
the wall-clock bookkeeping fields are external payloads kept as the `now`
stamps. -/

structure ProcResult where
  job_id : String
  document_id : Int
  document_type : String
  steps_completed : List String
  classification : Option ClassifyResult
  text_extraction : ExtractResult
  entity_extraction : Option EntityResult
  quality_assessment : QualityResult
  confidence_score : ℚ
  processing_started : Nat
  processing_completed : Nat
deriving DecidableEq

/-- The `ProcessingJob` dataclass of `queue_service.py`. Timestamps are `Nat`
stamps in place of isoformat strings. -/

structure ProcessingJob where
  job_id : String
  document_id : Int
  file_path : String
  document_type : String
  status : String := "queued"
  priority : Int := 0
  retry_count : Nat := 0
  max_retries : Nat := 3
  created_at : Nat
  started_at : Option Nat := none
  completed_at : Option Nat := none
  error_message : Option String := none
  result : Option ProcResult := none
deriving DecidableEq

/-- The Redis state touched by `QueueService`: the four job indices
(`mdus:jobs:pending/processing/completed/failed`) and the job records
(`mdus:job:<id>` keys). Metrics counters are not modelled. -/

structure QState where
  pending : ZSet
  processing : ZSet
  completed : ZSet
  failed : ZSet
  jobData : List (String × ProcessingJob)
deriving DecidableEq

/-- Empty Redis state. -/

def QState.empty : QState := ⟨[], [], [], [], []⟩

/-- `_get_job_data`: fetch and deserialize a job record. `none` models both a
missing (expired) key and a deserialization failure. -/

def lookupJob (st : QState) (job_id : String) : Option ProcessingJob :=
  (st.jobData.find? (fun p => p.1 == job_id)).map Prod.snd

/-- `_save_job_data`: write the record under the key derived from the
job_id field of the record (refreshing the 24h TTL, which is not counted). -/

def saveJob (st : QState) (job : ProcessingJob) : QState :=
  { st with jobData :=
      st.jobData.filter (fun p => p.1 != job.job_id) ++ [(job.job_id, job)] }

/-- Well-formed job store: every record is filed under its own job id. Every
state produced by the service operations from the empty state satisfies
this, since `_save_job_data` keys the write by `job.job_id`. -/

def WFStore (st : QState) : Prop :=
  ∀ p ∈ st.jobData, p.2.job_id = p.1

instance (st : QState) : Decidable (WFStore st) := by
  unfold WFStore; infer_instance

/-- `queue_document_processing`: create the job record (status "queued",
retry_count 0, `max_retries` from settings) and ZADD the id to the pending
index with score `-priority` (negative for descending priority order). The
uuid4 job id is a parameter. -/

def queue_document_processing (st : QState) (document_id : Int)
    (file_path document_type : String) (priority : Int) (max_retries : Nat)
    (job_id : String) (now : Nat) : QState :=
  let job : ProcessingJob :=
    { job_id := job_id, document_id := document_id, file_path := file_path,
      document_type := document_type, priority := priority,
      max_retries := max_retries, created_at := now }
  let st1 := saveJob st job
  { st1 with pending := zadd st1.pending job_id (-priority) }

/-- Steps of `get_next_job` after the ZRANGE read: ZREM the id from pending
and ZADD it to processing stamped with the current time. -/

def gnjClaim (st : QState) (job_id : String) (now : Nat) : QState :=
  { st with pending := zrem st.pending job_id,
            processing := zadd st.processing job_id (now : Int) }

/-- Final steps of `get_next_job`: fetch the record; when absent, log and
return `None` (the processing index entry is left in place); otherwise mark
it processing, stamp `started_at`, save, and return it. -/

def gnjFetchUpdate (st : QState) (job_id : String) (now : Nat) :
    Option ProcessingJob × QState :=
  match lookupJob st job_id with
  | none => (none, st)
  | some job =>
    let job := { job with status := "processing", started_at := some now }
    (some job, saveJob st job)

/-- `get_next_job`: ZRANGE 0 0 on the pending index, then claim and fetch.
Defined as the composition of the per-await atomic steps. -/

def get_next_job (st : QState) (now : Nat) : Option ProcessingJob × QState :=
  match zmin st.pending with
  | none => (none, st)
  | some (job_id, _score) => gnjFetchUpdate (gnjClaim st job_id now) job_id now

/-- Interleaving of two concurrent `get_next_job` calls in which both callers
execute the ZRANGE read before either executes its ZREM — an interleaving the
source permits, since every `await redis.X` is a suspension point and the
read/remove pair is not atomic (the ZREM removal count is ignored). Caller 1
then runs its remaining steps, then caller 2 runs its remaining steps. -/

def get_next_job_race (st : QState) (now1 now2 : Nat) :
    Option ProcessingJob × Option ProcessingJob × QState :=
  match zmin st.pending, zmin st.pending with
  | some (j1, _), some (j2, _) =>
    let p1 := gnjFetchUpdate (gnjClaim st j1 now1) j1 now1
    let p2 := gnjFetchUpdate (gnjClaim p1.2 j2 now2) j2 now2
    (p1.1, p2.1, p2.2)
  | _, _ => (none, none, st)

/-- `complete_job`: ZREM from processing, ZADD to completed, and when the
record exists mark it completed with the result payload. -/

def complete_job (st : QState) (job_id : String) (result : Option ProcResult)
    (now : Nat) : QState :=
  let st1 := { st with processing := zrem st.processing job_id,
                       completed := zadd st.completed job_id (now : Int) }
  match lookupJob st1 job_id with
  | none => st1
  | some job =>
    saveJob st1 { job with status := "completed", completed_at := some now,
                           result := result }

/-- `fail_job`: ZREM from processing; when the record is missing, log and
return (the id is now in no index). Otherwise increment `retry_count` and
either requeue (status "queued", score `-(priority - 1)`, timestamps reset)
when `retry_count < max_retries`, or mark failed and ZADD to the failed
index. -/

def fail_job (st : QState) (job_id : String) (error_message : String)
    (retry : Bool) (now : Nat) : QState :=
  let st1 := { st with processing := zrem st.processing job_id }
  match lookupJob st1 job_id with
  | none => st1
  | some job0 =>
    let job := { job0 with retry_count := job0.retry_count + 1,
                           error_message := some error_message,
                           completed_at := some now }
    if retry ∧ job.retry_count < job.max_retries then
      let job := { job with status := "queued", started_at := none,
                            completed_at := none }
      saveJob { st1 with pending := zadd st1.pending job_id (-(job.priority - 1)) } job
    else
      let job := { job with status := "failed" }
      saveJob { st1 with failed := zadd st1.failed job_id (now : Int) } job

/-- Insertion into a list sorted by `zkeyLt`. -/

def zinsert (x : String × Int) : ZSet → ZSet
  | [] => [x]
  | y :: ys => if zkeyLt x y then x :: y :: ys else y :: zinsert x ys

/-- Sort by score then member, the order ZRANGEBYSCORE returns. -/

def zsort (l : ZSet) : ZSet := l.foldr zinsert []

/-- ZRANGEBYSCORE: entries with score in the closed interval, in sorted
order. -/

def zrangebyscore (l : ZSet) (lo hi : Int) : ZSet :=
  zsort (l.filter (fun p => decide (lo ≤ p.2 ∧ p.2 ≤ hi)))

/-- `cleanup_stuck_jobs`: fetch the processing entries whose start stamp is
older than the timeout cutoff, then fail each with retry, returning the
count. -/

def cleanup_stuck_jobs (st : QState) (timeout_minutes : Nat) (now : Nat) :
    QState × Nat :=
  let cutoff : Int := (now : Int) - timeout_minutes * 60
  let stuck := zrangebyscore st.processing 0 cutoff
  (stuck.foldl (fun s p => fail_job s p.1 "Job timeout" true now) st,
   stuck.length)

/-!
Worker pipeline (`DocumentProcessor` in `processing_worker.py`). The external
AI inference endpoint is a parameter: each call either returns a payload or
an error, which the worker converts to the zero-confidence fallback of its
except branch.
-/

/-- The external AI service interface used by the worker. -/

structure AIService where
  classify : String → Except String ClassifyResult
  extractText : String → String → Except String ExtractResult
  extractEntities : String → String → Except String EntityResult

/-- `_classify_document`: AI call, with the except-branch fallback. -/

def classify_document (ai : AIService) (file_path : String) : ClassifyResult :=
  match ai.classify file_path with
  | .ok r => r
  | .error e => { document_type := "other", confidence := 0, error := some e }

/-- `_extract_text`: AI call, with the except-branch fallback. -/

def extract_text (ai : AIService) (file_path document_type : String) :
    ExtractResult :=
  match ai.extractText file_path document_type with
  | .ok r => r
  | .error e => { text := "", confidence := 0, page_count := 1, error := some e }

/-- `_extract_medical_entities`: AI call, with the except-branch fallback. -/

def extract_medical_entities (ai : AIService) (text document_type : String) :
    EntityResult :=
  match ai.extractEntities text document_type with
  | .ok r => r
  | .error e =>
    { entities := [], entity_count := 0, confidence := 0, error := some e }

/-- Python `min` on two rationals (executable form of `min`). -/

def qmin (a b : ℚ) : ℚ := if a ≤ b then a else b

/-- Python `round(x, 4)` on the exact rational value. Python rounds float
ties to even; the two agree at every value the source can reach here except
exact decimal midpoints, which no theorem below touches. -/

def round4 (q : ℚ) : ℚ := (⌊q * 10000 + 1 / 2⌋ : ℚ) / 10000

/-- The unrounded quality score of `_assess_quality`:
`min(1.0, (text_length / 1000) * 0.5 + extraction_confidence * 0.5)`. -/

def quality_raw_score (text_length : Nat) (extraction_confidence : ℚ) : ℚ :=
  qmin 1 ((text_length : ℚ) / 1000 * (1 / 2) + extraction_confidence * (1 / 2))

/-- `_assess_quality`: quality score from extracted-text length and
extraction confidence, the issue flags, and the bucket label. The stored
`quality_score` is rounded to 4 decimal places; the bucket is computed from
the unrounded score, as in the source. -/

def assess_quality (extraction : ExtractResult) : QualityResult :=
  let text_length : Nat := extraction.text.length
  let extraction_confidence : ℚ := extraction.confidence
  let quality_score : ℚ := quality_raw_score text_length extraction_confidence
  let quality_issues : List String :=
    (if text_length < 100 then ["Low text content"] else []) ++
    (if extraction_confidence < 7 / 10 then ["Low extraction confidence"] else [])
  { quality_score := round4 quality_score,
    text_length := text_length,
    extraction_confidence := extraction_confidence,
    quality_issues := quality_issues,
    assessment :=
      if quality_score ≥ 7 / 10 then "good"
      else if quality_score ≥ 1 / 2 then "fair" else "poor" }

/-- Document types for which `_process_document` runs entity extraction. -/

def structuredTypes : List String :=
  ["medical_report", "prescription", "laboratory_result"]

/-- `_calculate_confidence_score`: mean of the confidences of whichever of
classification / text extraction / entity extraction / quality assessment
are present in the result dict, in that order; 0 when none are. The quality
contribution is the stored (rounded) quality_score. -/

def calculate_confidence_score (classification : Option ClassifyResult)
    (extraction : ExtractResult) (entities : Option EntityResult)
    (quality : QualityResult) : ℚ :=
  let scores : List ℚ :=
    (classification.map ClassifyResult.confidence).toList ++
    [extraction.confidence] ++
    (entities.map EntityResult.confidence).toList ++
    [quality.quality_score]
  if scores.length = 0 then 0 else scores.sum / scores.length

/-- `_process_document`: the fixed pipeline. Classification runs only when
the job document type is "other" or "unknown"; entity extraction runs only
when `job.document_type` (the original field — the classification output is
never written back) is in the structured set; quality assessment and the
overall confidence always run. The file-info fetch and timing bookkeeping
are external and represented by the `now` stamp. -/

def process_document (ai : AIService) (job : ProcessingJob) (now : Nat) :
    ProcResult :=
  let classification : Option ClassifyResult :=
    if job.document_type = "other" ∨ job.document_type = "unknown" then
      some (classify_document ai job.file_path)
    else none
  let extraction := extract_text ai job.file_path job.document_type
  let entities : Option EntityResult :=
    if job.document_type ∈ structuredTypes then
      some (extract_medical_entities ai extraction.text job.document_type)
    else none
  let quality := assess_quality extraction
  { job_id := job.job_id, document_id := job.document_id,
    document_type := job.document_type,
    steps_completed :=
      ["file_validation"] ++
      (if job.document_type = "other" ∨ job.document_type = "unknown" then
        ["document_classification"] else []) ++
      ["text_extraction"] ++
      (if job.document_type ∈ structuredTypes then ["entity_extraction"]
       else []) ++
      ["quality_assessment"],
    classification := classification,
    text_extraction := extraction,
    entity_extraction := entities,
    quality_assessment := quality,
    confidence_score := calculate_confidence_score classification extraction
      entities quality,
    processing_started := now, processing_completed := now }

/-- `_process_job` on the path where the source artifact is reachable: the
pipeline runs to completion (all inference errors are caught inside the
steps), and the job is marked completed with the result. The except branch
calling `fail_job` is unreachable here because the embedded pipeline is
total. -/

def process_job (st : QState) (ai : AIService) (job : ProcessingJob)
    (now : Nat) : QState :=
  complete_job st job.job_id (some (process_document ai job now)) now

/-- An inference endpoint on which every call errors, the hypothesis of the
pipeline-degradation property; the message functions are arbitrary. -/

def erroringAI (e1 : String → String) (e2 : String → String → String)
    (e3 : String → String → String) : AIService :=
  { classify := fun fp => .error (e1 fp),
    extractText := fun fp dt => .error (e2 fp dt),
    extractEntities := fun t dt => .error (e3 t dt) }

/-- Queue with two equal-priority jobs, id "b" enqueued before id "a". -/

def tieQueueState : QState :=
  queue_document_processing
    (queue_document_processing QState.empty 1 "f1" "t" 0 3 "b" 0)
    2 "f2" "t" 0 3 "a" 1

/-- Queue with three jobs of priorities 5, 1, 3 (ids "a", "b", "c"). -/

def prioQueueState : QState :=
  queue_document_processing
    (queue_document_processing
      (queue_document_processing QState.empty 1 "f1" "t" 5 3 "a" 0)
      2 "f2" "t" 1 3 "b" 1)
    3 "f3" "t" 3 3 "c" 2

/-- Queue with the two distinct pending jobs "a" and "b", raced below. -/

def raceQueueState : QState :=
  queue_document_processing
    (queue_document_processing QState.empty 1 "f1" "t" 0 3 "a" 0)
    2 "f2" "t" 0 3 "b" 1

/-- Retry trace for a job with max_retries = 2: enqueue, dequeue, first
failure, dequeue, second failure, then a third failure reported against the
already-failed job (as a belated executor or reaper would). -/

def retryState0 : QState :=
  queue_document_processing QState.empty 1 "f" "t" 0 2 "j" 0

def retryState1 : QState := (get_next_job retryState0 1).2

def retryState2 : QState := fail_job retryState1 "j" "boom" true 2

def retryState3 : QState := (get_next_job retryState2 3).2

def retryState4 : QState := fail_job retryState3 "j" "boom" true 4

def retryState5 : QState := fail_job retryState4 "j" "boom" true 5

/-- Decay trace for a job with priority 5 and max_retries = 3: two failures,
each requeueing. -/

def decayState0 : QState :=
  queue_document_processing QState.empty 1 "f" "t" 5 3 "j" 0

def decayState1 : QState := (get_next_job decayState0 1).2

def decayState2 : QState := fail_job decayState1 "j" "boom" true 2

def decayState3 : QState := (get_next_job decayState2 3).2

def decayState4 : QState := fail_job decayState3 "j" "boom" true 4

/-- A job record already in the failed state. -/

def failedRecord : ProcessingJob :=
  { job_id := "j", document_id := 1, file_path := "f", document_type := "t",
    status := "failed", retry_count := 2, max_retries := 2, created_at := 0 }

def failedState : QState :=
  { pending := [], processing := [], completed := [], failed := [("j", 5)],
    jobData := [("j", failedRecord)] }

/-- An in-flight index entry whose job record is gone (expired). -/

def orphanState : QState :=
  { pending := [], processing := [("g", 10)], completed := [], failed := [],
    jobData := [] }

/-- A pending index entry whose job record is gone (expired). -/

def expiredPendingState : QState :=
  { pending := [("x", -1)], processing := [], completed := [], failed := [],
    jobData := [] }

/-- An in-flight job record with priority 5 and retries left. -/

def processingRecord : ProcessingJob :=
  { job_id := "w", document_id := 7, file_path := "f",
    document_type := "medical_report", status := "processing", priority := 5,
    retry_count := 0, max_retries := 3, created_at := 0 }

def processingState : QState :=
  { pending := [], processing := [("w", 3)], completed := [], failed := [],
    jobData := [("w", processingRecord)] }

/-- Classifier that reclassifies everything as a medical report while the
other endpoints succeed. -/

def reclassifyAI : AIService :=
  { classify := fun _ =>
      .ok { document_type := "medical_report", confidence := 9 / 10 },
    extractText := fun _ _ => .ok { text := "hello", confidence := 1 },
    extractEntities := fun _ _ =>
      .ok { entities := ["x"], entity_count := 1, confidence := 1 } }

/-- A job whose original document type is "other". -/

def otherTypeJob : ProcessingJob :=
  { job_id := "j9", document_id := 9, file_path := "f",
    document_type := "other", created_at := 0 }

/-- Extraction result with 2000 chars of text at zero confidence. -/

def longLowConfExtraction : ExtractResult :=
  { text := String.mk (List.replicate 2000 'a'), confidence := 0 }

/-- Modelled from the spec (step 5 of the §4.3 pipeline): the quality-score
formula exactly as the spec words it, with the inner clamp on the length
term, for comparison against the source formula `quality_raw_score`. -/

def spec_quality_score (text_length : Nat) (extraction_confidence : ℚ) : ℚ :=
  qmin 1 ((1 / 2) * qmin 1 ((text_length : ℚ) / 1000) +
    (1 / 2) * extraction_confidence)

theorem lex_cons_invert {r : Nat → Nat → Prop} {a b : Nat} {l1 l2 : List Nat}
    (h : List.Lex r (a :: l1) (b :: l2)) : r a b ∨ (a = b ∧ List.Lex r l1 l2) := by
  cases h with
  | rel h => exact Or.inl h
  | cons h => exact Or.inr ⟨rfl, h⟩

theorem charListLt_iff : ∀ l1 l2 : List Char,
    charListLt l1 l2 = true ↔
      List.Lex (· < ·) (l1.map Char.toNat) (l2.map Char.toNat)
  | l1, [] => by
    constructor
    · intro h
      rw [show charListLt l1 [] = false from by cases l1 <;> rfl] at h
      cases h
    · intro h
      exact absurd h (List.Lex.not_nil_right _ _)
  | [], d :: ds => by
    constructor
    · intro _
      exact List.Lex.nil
    · intro _
      rfl
  | c :: cs, d :: ds => by
    rw [charListLt]
    by_cases h1 : c.toNat < d.toNat
    · rw [if_pos h1]
      simp only [List.map_cons]
      constructor
      · intro _
        exact List.Lex.rel h1
      · intro _
        trivial
    · rw [if_neg h1]
      by_cases h2 : d.toNat < c.toNat
      · rw [if_pos h2]
        simp only [List.map_cons]
        constructor
        · intro h; cases h
        · intro h
          rcases lex_cons_invert h with hr | ⟨he, _⟩
          · omega
          · omega
      · rw [if_neg h2]
        have heq : c.toNat = d.toNat := by omega
        simp only [List.map_cons]
        rw [charListLt_iff cs ds]
        constructor
        · intro h
          rw [heq]
          exact List.Lex.cons h
        · intro h
          rcases lex_cons_invert h with hr | ⟨_, ht⟩
          · omega
          · exact ht

theorem strLt_iff (a b : String) :
    strLt a b ↔ List.Lex (· < ·) (a.data.map Char.toNat) (b.data.map Char.toNat) :=
  charListLt_iff a.data b.data

theorem strLt_irrefl (a : String) : ¬ strLt a a := by
  rw [strLt_iff]
  have hA : IsAsymm (List Nat) (List.Lex (· < ·)) := inferInstance
  exact fun h => hA.asymm _ _ h h

theorem strLt_trans {a b c : String} (h1 : strLt a b) (h2 : strLt b c) :
    strLt a c := by
  rw [strLt_iff] at h1 h2 ⊢
  have hT : IsTrans (List Nat) (List.Lex (· < ·)) := inferInstance
  exact hT.trans _ _ _ h1 h2

theorem strLt_lt_of_not_lt {a b c : String} (h1 : strLt a b)
    (h2 : ¬ strLt c b) : strLt a c := by
  rw [strLt_iff] at h1 h2 ⊢
  have hT : IsTrans (List Nat) (List.Lex (· < ·)) := inferInstance
  have hTri : IsTrichotomous (List Nat) (List.Lex (· < ·)) := inferInstance
  rcases hTri.trichotomous (c.data.map Char.toNat) (b.data.map Char.toNat) with
    h | h | h
  · exact absurd h h2
  · rw [← h] at h1; exact h1
  · exact hT.trans _ _ _ h1 h

theorem zkeyLt_irrefl (a : String × Int) : ¬ zkeyLt a a := by
  rw [zkeyLt]
  rintro (h | ⟨-, h⟩)
  · exact lt_irrefl _ h
  · exact strLt_irrefl _ h

theorem zkeyLt_trans {a b c : String × Int} (h1 : zkeyLt a b) (h2 : zkeyLt b c) :
    zkeyLt a c := by
  rcases h1 with h1 | ⟨h1e, h1m⟩ <;> rcases h2 with h2 | ⟨h2e, h2m⟩
  · exact Or.inl (lt_trans h1 h2)
  · exact Or.inl (h2e ▸ h1)
  · exact Or.inl (h1e ▸ h2)
  · exact Or.inr ⟨h1e.trans h2e, strLt_trans h1m h2m⟩

theorem zkeyLt_of_lt_of_not_lt {a b c : String × Int}
    (h1 : zkeyLt a b) (h2 : ¬ zkeyLt c b) : zkeyLt a c := by
  rw [zkeyLt, not_or, not_and] at h2
  obtain ⟨h2s, h2m⟩ := h2
  rcases h1 with h1 | ⟨h1e, h1m⟩
  · rcases lt_or_ge a.2 c.2 with h | h
    · exact Or.inl h
    · refine Or.inl (lt_of_lt_of_le h1 ?_)
      exact le_of_not_lt h2s
  · rcases lt_trichotomy a.2 c.2 with h | h | h
    · exact Or.inl h
    · refine Or.inr ⟨h, ?_⟩
      have hcb : c.2 = b.2 := by omega
      exact strLt_lt_of_not_lt h1m (h2m hcb)
    · exact absurd (lt_of_lt_of_le h (by omega)) h2s

theorem zminFold_mem (l : ZSet) : ∀ b, zminFold b l = b ∨ zminFold b l ∈ l := by
  induction l with
  | nil => intro b; exact Or.inl rfl
  | cons y ys ih =>
    intro b
    rw [zminFold]
    by_cases hy : zkeyLt y b
    · rw [if_pos hy]
      rcases ih y with h | h
      · exact Or.inr (List.mem_cons.mpr (Or.inl h))
      · exact Or.inr (List.mem_cons_of_mem y h)
    · rw [if_neg hy]
      rcases ih b with h | h
      · exact Or.inl h
      · exact Or.inr (List.mem_cons_of_mem y h)

theorem zminFold_min (l : ZSet) :
    ∀ b, ¬ zkeyLt b (zminFold b l) ∧ ∀ y ∈ l, ¬ zkeyLt y (zminFold b l) := by
  induction l with
  | nil => intro b; exact ⟨zkeyLt_irrefl b, by simp⟩
  | cons y ys ih =>
    intro b
    rw [zminFold]
    by_cases hy : zkeyLt y b
    · rw [if_pos hy]
      obtain ⟨ihb, ihl⟩ := ih y
      have hbr : ¬ zkeyLt b (zminFold y ys) := fun hb => ihb (zkeyLt_trans hy hb)
      refine ⟨hbr, ?_⟩
      intro z hz
      rcases List.mem_cons.mp hz with rfl | hz
      · exact ihb
      · exact ihl z hz
    · rw [if_neg hy]
      obtain ⟨ihb, ihl⟩ := ih b
      refine ⟨ihb, ?_⟩
      intro z hz
      rcases List.mem_cons.mp hz with rfl | hz
      · intro hzr
        exact hy (zkeyLt_of_lt_of_not_lt hzr ihb)
      · exact ihl z hz

/-- The head returned by `zmin` is an element of the set and is minimal:
no entry is strictly below it in score/member order. -/

theorem zmin_spec {l : ZSet} {x : String × Int} (h : zmin l = some x) :
    x ∈ l ∧ ∀ y ∈ l, ¬ zkeyLt y x := by
  cases l with
  | nil => cases h
  | cons a t =>
    rw [zmin] at h
    have hx := Option.some.inj h
    subst hx
    obtain ⟨hb, hl⟩ := zminFold_min t a
    constructor
    · rcases zminFold_mem t a with he | he
      · rw [he]; exact List.mem_cons_self a t
      · exact List.mem_cons_of_mem a he
    · intro y hy
      rcases List.mem_cons.mp hy with rfl | hy
      · exact hb
      · exact hl y hy

theorem mem_zmembers_of_mem {l : ZSet} {p : String × Int} (h : p ∈ l) :
    p.1 ∈ zmembers l :=
  List.mem_map.mpr ⟨p, h, rfl⟩

theorem not_mem_zmembers_zrem (l : ZSet) (m : String) :
    m ∉ zmembers (zrem l m) := by
  intro h
  rw [zmembers, List.mem_map] at h
  obtain ⟨p, hp, hfst⟩ := h
  rw [zrem, List.mem_filter] at hp
  have : p.1 ≠ m := by simpa using hp.2
  exact this hfst

theorem mem_zmembers_zrem_of_ne {l : ZSet} {m i : String}
    (h : i ∈ zmembers l) (hne : i ≠ m) : i ∈ zmembers (zrem l m) := by
  rw [zmembers, List.mem_map] at h ⊢
  obtain ⟨p, hp, hfst⟩ := h
  refine ⟨p, ?_, hfst⟩
  rw [zrem, List.mem_filter]
  refine ⟨hp, ?_⟩
  simp only [bne_iff_ne, ne_eq, decide_not]
  simp [hfst ▸ hne]

theorem mem_zmembers_zadd_self (l : ZSet) (m : String) (s : Int) :
    m ∈ zmembers (zadd l m s) := by
  rw [zmembers, zadd, List.map_append, List.mem_append]
  exact Or.inr (by simp)

theorem beq_key_false {m i : String} (h : m ≠ i) : (m == i) = false := by
  simp [h]

theorem find?_key_append {α : Type} (l1 l2 : List (String × α)) (i : String) :
    ((l1 ++ l2).find? (fun p => p.1 == i)) =
      ((l1.find? (fun p => p.1 == i)).orElse fun _ => l2.find? (fun p => p.1 == i)) := by
  induction l1 with
  | nil => simp [Option.orElse]
  | cons a t ih =>
    by_cases ha : a.1 = i
    · simp [List.find?, ha, Option.orElse]
    · simp only [List.cons_append, List.find?]
      rw [show (a.1 == i) = false by simpa using ha]
      exact ih

theorem find?_key_filter_out {α : Type} (l : List (String × α)) (m : String) :
    ((l.filter (fun p => p.1 != m)).find? (fun p => p.1 == m)) = none := by
  induction l with
  | nil => rfl
  | cons a t ih =>
    by_cases ha : a.1 = m
    · simp only [List.filter]
      rw [show (a.1 != m) = false by simp [ha]]
      exact ih
    · simp only [List.filter]
      rw [show (a.1 != m) = true by simpa using ha]
      rw [List.find?]
      rw [show (a.1 == m) = false by simpa using ha]
      exact ih

theorem find?_key_filter_ne {α : Type} (l : List (String × α)) (m i : String)
    (h : i ≠ m) :
    ((l.filter (fun p => p.1 != m)).find? (fun p => p.1 == i)) =
      l.find? (fun p => p.1 == i) := by
  induction l with
  | nil => rfl
  | cons a t ih =>
    by_cases ham : a.1 = m
    · have hai : (a.1 == i) = false := by
        rw [ham]; exact beq_key_false (Ne.symm h)
      simp only [List.filter]
      rw [show (a.1 != m) = false by simpa using ham]
      rw [List.find?, hai]
      exact ih
    · simp only [List.filter]
      rw [show (a.1 != m) = true by simpa using ham]
      by_cases hai : a.1 = i
      · simp [List.find?, hai]
      · rw [List.find?, show (a.1 == i) = false by simpa using hai]
        rw [List.find?, show (a.1 == i) = false by simpa using hai]
        exact ih

/-- Score of a member just written by ZADD. -/

theorem zscore_zadd_self (l : ZSet) (m : String) (s : Int) :
    zscore (zadd l m s) m = some s := by
  rw [zscore, zadd, find?_key_append, find?_key_filter_out]
  simp [Option.orElse]

theorem qmin_eq_min (a b : ℚ) : qmin a b = min a b := by
  rw [qmin, min_def]

theorem round4_zero : round4 0 = 0 := by
  rw [round4, show ⌊(0 : ℚ) * 10000 + 1 / 2⌋ = 0 from by
    rw [Int.floor_eq_iff]
    norm_num]
  norm_num

theorem round4_one : round4 1 = 1 := by
  rw [round4, show ⌊(1 : ℚ) * 10000 + 1 / 2⌋ = 10000 from by
    rw [Int.floor_eq_iff]
    norm_num]
  norm_num

/-!
Support lemmas about the job store and the service operations.
-/

theorem lookupJob_saveJob (st : QState) (job : ProcessingJob) (i : String) :
    lookupJob (saveJob st job) i =
      if i = job.job_id then some job else lookupJob st i := by
  show ((st.jobData.filter (fun p => p.1 != job.job_id) ++
      [(job.job_id, job)]).find? (fun p => p.1 == i)).map Prod.snd = _
  rw [find?_key_append]
  by_cases h : i = job.job_id
  · rw [if_pos h, h, find?_key_filter_out]
    simp [Option.orElse, List.find?]
  · rw [if_neg h, find?_key_filter_ne st.jobData job.job_id i h]
    cases hf : st.jobData.find? (fun p => p.1 == i) with
    | none =>
      simp only [hf, Option.orElse]
      simp [List.find?, beq_key_false (Ne.symm h), lookupJob, hf]
    | some p =>
      simp [hf, Option.orElse, lookupJob]

theorem WFStore_saveJob {st : QState} (h : WFStore st) (job : ProcessingJob) :
    WFStore (saveJob st job) := by
  intro p hp
  have hp2 : p ∈ st.jobData.filter (fun q => q.1 != job.job_id) ++
      [(job.job_id, job)] := hp
  rcases List.mem_append.mp hp2 with h3 | h3
  · exact h p (List.mem_filter.mp h3).1
  · rw [List.mem_singleton.mp h3]

theorem lookupJob_job_id {st : QState} {i : String} {job : ProcessingJob}
    (hWF : WFStore st) (h : lookupJob st i = some job) : job.job_id = i := by
  rw [lookupJob] at h
  cases hf : st.jobData.find? (fun p => p.1 == i) with
  | none => rw [hf] at h; cases h
  | some p =>
    rw [hf] at h
    have hm := List.mem_of_find?_eq_some hf
    have hk : p.1 = i := by
      have := List.find?_some hf
      simpa using this
    have hid := hWF p hm
    have hv : p.2 = job := Option.some.inj h
    rw [← hv, hid, hk]

/-- Case of `complete_job` when the record exists. -/

theorem complete_job_present (st : QState) (j : String) (res : Option ProcResult)
    (now : Nat) (job0 : ProcessingJob) (h : lookupJob st j = some job0) :
    complete_job st j res now =
      saveJob { st with processing := zrem st.processing j,
                        completed := zadd st.completed j (now : Int) }
        { job0 with status := "completed", completed_at := some now,
                    result := res } := by
  have h1 : lookupJob { st with processing := zrem st.processing j,
                                 completed := zadd st.completed j (now : Int) } j
      = some job0 := h
  simp [complete_job, h1]

/-- Case of `fail_job` when the record is missing: the id is removed from the
in-flight index and nothing else happens. -/

theorem fail_job_missing (st : QState) (j msg : String) (r : Bool) (now : Nat)
    (h : lookupJob st j = none) :
    fail_job st j msg r now = { st with processing := zrem st.processing j } := by
  have h1 : lookupJob { st with processing := zrem st.processing j } j = none := h
  simp [fail_job, h1]

/-- Case of `fail_job` that requeues: record present, retry requested, and the
incremented retry_count still below max_retries. -/

theorem fail_job_requeue (st : QState) (j msg : String) (now : Nat)
    (job0 : ProcessingJob) (h : lookupJob st j = some job0)
    (hlt : job0.retry_count + 1 < job0.max_retries) :
    fail_job st j msg true now =
      saveJob { st with processing := zrem st.processing j,
                        pending := zadd st.pending j (-(job0.priority - 1)) }
        { job0 with retry_count := job0.retry_count + 1,
                    error_message := some msg, status := "queued",
                    started_at := none, completed_at := none } := by
  have h1 : lookupJob { st with processing := zrem st.processing j } j
      = some job0 := h
  simp only [fail_job, h1]
  rw [if_pos (⟨trivial, hlt⟩ : True ∧
    job0.retry_count + 1 < job0.max_retries)]

/-- Case of `fail_job` that marks the job failed: record present but no retry
or retries exhausted. -/

theorem fail_job_exhausted (st : QState) (j msg : String) (r : Bool) (now : Nat)
    (job0 : ProcessingJob) (h : lookupJob st j = some job0)
    (hge : ¬ (r = true ∧ job0.retry_count + 1 < job0.max_retries)) :
    fail_job st j msg r now =
      saveJob { st with processing := zrem st.processing j,
                        failed := zadd st.failed j (now : Int) }
        { job0 with retry_count := job0.retry_count + 1,
                    error_message := some msg, completed_at := some now,
                    status := "failed" } := by
  have h1 : lookupJob { st with processing := zrem st.processing j } j
      = some job0 := h
  simp only [fail_job, h1]
  rw [if_neg (fun hc => hge ⟨by simpa using hc.1, hc.2⟩)]

/-- Case of `get_next_job` on an empty pending index. -/

theorem get_next_job_empty (st : QState) (now : Nat)
    (h : zmin st.pending = none) : get_next_job st now = (none, st) := by
  simp [get_next_job, h]

/-- Case of `get_next_job` when the head record is missing: the head is still
moved from pending to processing, and no job is returned. -/

theorem get_next_job_missing (st : QState) (now : Nat) (j : String) (s : Int)
    (h : zmin st.pending = some (j, s)) (hmiss : lookupJob st j = none) :
    get_next_job st now = (none, gnjClaim st j now) := by
  have h1 : lookupJob (gnjClaim st j now) j = none := hmiss
  simp [get_next_job, h, gnjFetchUpdate, h1]

/-- Case of `get_next_job` when the head record exists. -/

theorem get_next_job_found (st : QState) (now : Nat) (j : String) (s : Int)
    (job0 : ProcessingJob) (h : zmin st.pending = some (j, s))
    (hrec : lookupJob st j = some job0) :
    get_next_job st now =
      (some { job0 with status := "processing", started_at := some now },
       saveJob (gnjClaim st j now)
         { job0 with status := "processing", started_at := some now }) := by
  have h1 : lookupJob (gnjClaim st j now) j = some job0 := hrec
  simp [get_next_job, h, gnjFetchUpdate, h1]

theorem mem_zinsert {x y : String × Int} : ∀ {l : ZSet}, x ∈ zinsert y l → x = y ∨ x ∈ l
  | [], h => by
    rw [zinsert] at h
    exact Or.inl (List.mem_singleton.mp h)
  | z :: zs, h => by
    rw [zinsert] at h
    by_cases hz : zkeyLt y z
    · rw [if_pos hz] at h
      exact List.mem_cons.mp h
    · rw [if_neg hz] at h
      rcases List.mem_cons.mp h with h | h
      · exact Or.inr (h ▸ List.mem_cons_self z zs)
      · rcases mem_zinsert h with h | h
        · exact Or.inl h
        · exact Or.inr (List.mem_cons_of_mem z h)

theorem mem_zsort {x : String × Int} : ∀ {l : ZSet}, x ∈ zsort l → x ∈ l
  | [], h => by cases h
  | z :: zs, h => by
    rw [zsort, List.foldr] at h
    rcases mem_zinsert h with h | h
    · exact h ▸ List.mem_cons_self z zs
    · exact List.mem_cons_of_mem z (mem_zsort h)

theorem mem_zrangebyscore {x : String × Int} {l : ZSet} {lo hi : Int}
    (h : x ∈ zrangebyscore l lo hi) : x ∈ l := by
  rw [zrangebyscore] at h
  exact (List.mem_filter.mp (mem_zsort h)).1

/-- Failing a different job id leaves a lookup unchanged. -/

theorem lookupJob_fail_job_ne {st : QState} {k j : String} (msg : String)
    (r : Bool) (now : Nat) (hWF : WFStore st) (hne : k ≠ j) :
    lookupJob (fail_job st k msg r now) j = lookupJob st j := by
  cases hrec : lookupJob st k with
  | none => rw [fail_job_missing st k msg r now hrec]; rfl
  | some job0 =>
    have hid : job0.job_id = k := lookupJob_job_id hWF hrec
    by_cases hc : r = true ∧ job0.retry_count + 1 < job0.max_retries
    · obtain ⟨hr, hlt⟩ := hc
      subst hr
      rw [fail_job_requeue st k msg now job0 hrec hlt, lookupJob_saveJob]
      rw [if_neg (by simpa [hid] using Ne.symm hne)]
      rfl
    · rw [fail_job_exhausted st k msg r now job0 hrec hc, lookupJob_saveJob]
      rw [if_neg (by simpa [hid] using Ne.symm hne)]
      rfl

theorem WFStore_queue_update {st : QState} (h : WFStore st)
    (p q c f : ZSet) :
    WFStore { st with pending := p, processing := q, completed := c,
                      failed := f } := h

theorem WFStore_fail_job {st : QState} (j msg : String) (r : Bool) (now : Nat)
    (hWF : WFStore st) : WFStore (fail_job st j msg r now) := by
  cases hrec : lookupJob st j with
  | none => rw [fail_job_missing st j msg r now hrec]; exact hWF
  | some job0 =>
    by_cases hc : r = true ∧ job0.retry_count + 1 < job0.max_retries
    · obtain ⟨hr, hlt⟩ := hc
      subst hr
      rw [fail_job_requeue st j msg now job0 hrec hlt]
      exact WFStore_saveJob hWF _
    · rw [fail_job_exhausted st j msg r now job0 hrec hc]
      exact WFStore_saveJob hWF _

/-- A fold of `fail_job` over ids different from `j` leaves the record of `j`
unchanged. -/

theorem lookupJob_foldl_fail_ne (msg : String) (r : Bool) (now : Nat)
    (j : String) (ids : ZSet) :
    ∀ (st : QState), WFStore st → (∀ p ∈ ids, p.1 ≠ j) →
      lookupJob (ids.foldl (fun s p => fail_job s p.1 msg r now) st) j =
        lookupJob st j := by
  induction ids with
  | nil => intro st _ _; rfl
  | cons p ps ih =>
    intro st hWF hne
    rw [List.foldl_cons]
    rw [ih _ (WFStore_fail_job p.1 msg r now hWF)
      (fun q hq => hne q (List.mem_cons_of_mem p hq))]
    exact lookupJob_fail_job_ne msg r now hWF (hne p (List.mem_cons_self p ps))

/-!
Fixture states and inputs for the claim theorems.
-/

theorem string_mk_length (l : List Char) : (String.mk l).length = l.length := rfl

/-!
The claims.
-/

/-- C1: two concurrent `get_next_job` calls, interleaved so that both run the
ZRANGE read before either runs its ZREM (an interleaving the source allows,
as each `await` is a suspension point and the removal count is ignored),
return the SAME job id "a" against a queue holding the two distinct pending
jobs "a" and "b", and "b" stays pending: the returned ids are neither
pairwise distinct nor exhaustive, contradicting the no-double-dequeue
property the spec requires of the code. -/

theorem C1_racing_dequeues_return_same_id :
    ((get_next_job_race raceQueueState 5 6).1).map ProcessingJob.job_id
        = some "a" ∧
    ((get_next_job_race raceQueueState 5 6).2.1).map ProcessingJob.job_id
        = some "a" ∧
    "b" ∈ zmembers (get_next_job_race raceQueueState 5 6).2.2.pending :=
  ⟨by decide, by decide, by decide⟩

/-- C2 counterexample: two jobs with equal priority enqueued in the order
"b" then "a"; the first dequeue returns "a", not the first-enqueued "b":
equal-priority ties follow lexicographic job-id order, not insertion
order. -/

theorem C2_counterexample_tie_not_insertion_order :
    ((get_next_job tieQueueState 2).1).map ProcessingJob.job_id = some "a" ∧
    some "a" ≠ some "b" :=
  ⟨by decide, by decide⟩

/-- C2 amended: `get_next_job` dequeues an entry of the pending index that
is minimal by (score, member): every other pending entry has a strictly
larger score (strictly smaller priority, scores being negated priorities) or
an equal score and a job id not lexicographically below the dequeued one;
sequential dequeues therefore serve jobs in nonincreasing priority order
with ties broken by job id, not by insertion order. -/

theorem C2_descending_priority_lex_ties (st : QState) (now : Nat)
    (j : String) (s : Int) (hWF : WFStore st)
    (h : zmin st.pending = some (j, s)) :
    (j, s) ∈ st.pending ∧
    (∀ p ∈ st.pending, s < p.2 ∨ (s = p.2 ∧ ¬ strLt p.1 j)) ∧
    (∀ job, (get_next_job st now).1 = some job → job.job_id = j) := by
  obtain ⟨hmem, hmin⟩ := zmin_spec h
  refine ⟨hmem, ?_, ?_⟩
  · intro p hp
    have hnot := hmin p hp
    rw [zkeyLt, not_or, not_and] at hnot
    obtain ⟨h1, h2⟩ := hnot
    rcases lt_or_eq_of_le (le_of_not_lt h1) with hlt | heq
    · exact Or.inl hlt
    · exact Or.inr ⟨heq, h2 heq.symm⟩
  · intro job hj
    cases hrec : lookupJob st j with
    | none =>
      rw [get_next_job_missing st now j s h hrec] at hj
      cases hj
    | some job0 =>
      rw [get_next_job_found st now j s job0 h hrec] at hj
      rw [← Option.some.inj hj]
      exact (lookupJob_job_id hWF hrec : job0.job_id = j)

/-- Witness for C2 amended, at the queue with priorities [5, 1, 3]: the head
is the priority-5 job "a" (score -5). -/

theorem C2_descending_priority_lex_ties_witness :
    WFStore prioQueueState ∧
    zmin prioQueueState.pending = some ("a", -5) ∧
    ("a", (-5 : Int)) ∈ prioQueueState.pending :=
  ⟨by decide, by decide,
   (C2_descending_priority_lex_ties prioQueueState 10 "a" (-5) (by decide)
      (by decide)).1⟩

/-- C3 counterexample: a job with max_retries = 2 that fails three times
ends with retry_count = 3, which exceeds max_retries and is not the claimed
retry_count = 2. -/

theorem C3_counterexample_third_failure :
    (lookupJob retryState5 "j").map ProcessingJob.retry_count = some 3 ∧
    (lookupJob retryState5 "j").map ProcessingJob.max_retries = some 2 ∧
    (lookupJob retryState5 "j").map ProcessingJob.status = some "failed" ∧
    ¬ (3 : Nat) ≤ 2 :=
  ⟨by decide, by decide, by decide, by omega⟩

/-- C3 amended: with max_retries = 2 the retry cycle ends after TWO
failures: the first failure requeues the job with retry_count = 1, the
second marks it failed with retry_count = 2 = max_retries; it is requeued
exactly once, and retry_count stays at or below max_retries throughout the
cycle. -/

theorem C3_two_failures_one_requeue :
    (lookupJob retryState2 "j").map ProcessingJob.status = some "queued" ∧
    (lookupJob retryState2 "j").map ProcessingJob.retry_count = some 1 ∧
    "j" ∈ zmembers retryState2.pending ∧
    (lookupJob retryState4 "j").map ProcessingJob.status = some "failed" ∧
    (lookupJob retryState4 "j").map ProcessingJob.retry_count = some 2 ∧
    "j" ∉ zmembers retryState4.pending ∧
    "j" ∈ zmembers retryState4.failed :=
  ⟨by decide, by decide, by decide, by decide, by decide, by decide, by decide⟩

/-- C4 counterexample: `complete_job` does not check the current status; on
a job already failed it flips the status to completed — a transition out of
a terminal state. -/

theorem C4_counterexample_complete_after_failed :
    (lookupJob failedState "j").map ProcessingJob.status = some "failed" ∧
    (lookupJob (complete_job failedState "j" none 6) "j").map
        ProcessingJob.status = some "completed" :=
  ⟨by decide, by decide⟩

/-- C4 amended: a terminal (completed or failed) job whose id is no longer
in the pending or in-flight indices keeps its status under `get_next_job`
and `cleanup_stuck_jobs`; but `complete_job` and `fail_job` do not guard on
the current status, and `complete_job` on a terminal job id overwrites the
status to completed. -/

theorem C4_terminal_status (st : QState) (t now : Nat) (j : String)
    (job0 : ProcessingJob) (hWF : WFStore st)
    (hrec : lookupJob st j = some job0)
    (_hterm : job0.status = "completed" ∨ job0.status = "failed")
    (hp : j ∉ zmembers st.pending) (hq : j ∉ zmembers st.processing) :
    (lookupJob (get_next_job st now).2 j).map ProcessingJob.status
        = some job0.status ∧
    (lookupJob (cleanup_stuck_jobs st t now).1 j).map ProcessingJob.status
        = some job0.status ∧
    (lookupJob (complete_job st j none now) j).map ProcessingJob.status
        = some "completed" := by
  refine ⟨?_, ?_, ?_⟩
  · cases hz : zmin st.pending with
    | none =>
      rw [get_next_job_empty st now hz]
      rw [hrec]
      rfl
    | some q =>
      obtain ⟨k, s⟩ := q
      have hkmem : k ∈ zmembers st.pending :=
        mem_zmembers_of_mem (zmin_spec hz).1
      have hkj : k ≠ j := fun he => hp (he ▸ hkmem)
      cases hkrec : lookupJob st k with
      | none =>
        rw [get_next_job_missing st now k s hz hkrec]
        have h2 : lookupJob (gnjClaim st k now) j = some job0 := hrec
        rw [h2]
        rfl
      | some jobk =>
        rw [get_next_job_found st now k s jobk hz hkrec]
        rw [lookupJob_saveJob]
        have hidk : jobk.job_id = k := lookupJob_job_id hWF hkrec
        rw [if_neg (fun he => hkj ((he.trans hidk).symm))]
        have h2 : lookupJob (gnjClaim st k now) j = some job0 := hrec
        rw [h2]
        rfl
  · have hcl : (cleanup_stuck_jobs st t now).1 =
        (zrangebyscore st.processing 0 ((now : Int) - (t : Int) * 60)).foldl
          (fun s p => fail_job s p.1 "Job timeout" true now) st := rfl
    rw [hcl]
    rw [lookupJob_foldl_fail_ne "Job timeout" true now j _ st hWF
      (fun p hp2 => fun he =>
        hq (he ▸ mem_zmembers_of_mem (mem_zrangebyscore hp2)))]
    rw [hrec]
    rfl
  · rw [complete_job_present st j none now job0 hrec, lookupJob_saveJob]
    rw [if_pos (lookupJob_job_id hWF hrec).symm]
    rfl

/-- Witness for C4 amended, at a state holding one failed job record. -/

theorem C4_terminal_status_witness :
    WFStore failedState ∧
    lookupJob failedState "j" = some failedRecord ∧
    (lookupJob (complete_job failedState "j" none 100) "j").map
        ProcessingJob.status = some "completed" :=
  ⟨by decide, by decide,
   (C4_terminal_status failedState 30 100 "j" failedRecord (by decide)
      (by decide) (Or.inr (by decide)) (by decide) (by decide)).2.2⟩

/-- C7 counterexample: with original priority 5 and max_retries = 3, the
first AND the second requeue both insert the job at score -4 (effective
priority 4): the stored priority field is never decremented, so after the
2nd retry the effective priority is not 5 - 2 = 3. -/

theorem C7_counterexample_decay_does_not_accumulate :
    zscore decayState2.pending "j" = some (-4) ∧
    zscore decayState4.pending "j" = some (-4) ∧
    some (-4 : Int) ≠ some (-(3 : Int)) :=
  ⟨by decide, by decide, by decide⟩

/-- C7 amended: each retry requeues at score -(priority - 1) computed from
the stored priority field, and the field itself never changes, so every
retry re-inserts at the ORIGINAL priority minus one; the decay does not
accumulate with the number of retries. -/

theorem C7_requeue_priority_minus_one (st : QState) (j msg : String)
    (now : Nat) (job0 : ProcessingJob) (hWF : WFStore st)
    (hrec : lookupJob st j = some job0)
    (hlt : job0.retry_count + 1 < job0.max_retries) :
    zscore (fail_job st j msg true now).pending j
        = some (-(job0.priority - 1)) ∧
    (lookupJob (fail_job st j msg true now) j).map ProcessingJob.priority
        = some job0.priority := by
  rw [fail_job_requeue st j msg now job0 hrec hlt]
  constructor
  · exact zscore_zadd_self st.pending j (-(job0.priority - 1))
  · rw [lookupJob_saveJob]
    rw [if_pos (lookupJob_job_id hWF hrec).symm]
    rfl

/-- Witness for C7 amended: failing the priority-5 in-flight job requeues it
at score -4. -/

theorem C7_requeue_priority_minus_one_witness :
    WFStore processingState ∧
    lookupJob processingState "w" = some processingRecord ∧
    zscore (fail_job processingState "w" "boom" true 9).pending "w"
        = some (-4) :=
  ⟨by decide, by decide,
   (C7_requeue_priority_minus_one processingState "w" "boom" 9
      processingRecord (by decide) (by decide) (by decide)).1⟩

/-- C8 counterexample: failing an in-flight job whose record has expired
removes the id from the processing index without recording anything: the
job ends in no index with no record — it silently disappears. -/

theorem C8_counterexample_silent_drop :
    "g" ∈ zmembers orphanState.processing ∧
    "g" ∉ zmembers (fail_job orphanState "g" "boom" true 20).pending ∧
    "g" ∉ zmembers (fail_job orphanState "g" "boom" true 20).processing ∧
    "g" ∉ zmembers (fail_job orphanState "g" "boom" true 20).completed ∧
    "g" ∉ zmembers (fail_job orphanState "g" "boom" true 20).failed ∧
    lookupJob (fail_job orphanState "g" "boom" true 20) "g" = none :=
  ⟨by decide, by decide, by decide, by decide, by decide, by decide⟩

/-- C8 amended: when the job record is still present, `fail_job` never drops
the job: afterwards the record exists with status "queued" and the id back
in the pending index, or with status "failed" and the id in the failed
index; the no-silent-disappearance guarantee fails only when the record has
already expired. -/

theorem C8_fail_job_records_outcome (st : QState) (j msg : String) (r : Bool)
    (now : Nat) (job0 : ProcessingJob) (hWF : WFStore st)
    (hrec : lookupJob st j = some job0) :
    ((lookupJob (fail_job st j msg r now) j).map ProcessingJob.status
        = some "queued" ∧
      j ∈ zmembers (fail_job st j msg r now).pending) ∨
    ((lookupJob (fail_job st j msg r now) j).map ProcessingJob.status
        = some "failed" ∧
      j ∈ zmembers (fail_job st j msg r now).failed) := by
  have hid := lookupJob_job_id hWF hrec
  by_cases hc : r = true ∧ job0.retry_count + 1 < job0.max_retries
  · obtain ⟨hr, hlt⟩ := hc
    subst hr
    left
    rw [fail_job_requeue st j msg now job0 hrec hlt]
    constructor
    · rw [lookupJob_saveJob, if_pos hid.symm]
      rfl
    · exact mem_zmembers_zadd_self st.pending j _
  · right
    rw [fail_job_exhausted st j msg r now job0 hrec hc]
    constructor
    · rw [lookupJob_saveJob, if_pos hid.symm]
      rfl
    · exact mem_zmembers_zadd_self st.failed j _

/-- Witness for C8 amended: failing the tracked in-flight job "w" leaves it
recorded as requeued or failed. -/

theorem C8_fail_job_records_outcome_witness :
    lookupJob processingState "w" = some processingRecord ∧
    (((lookupJob (fail_job processingState "w" "boom" true 9) "w").map
          ProcessingJob.status = some "queued" ∧
       "w" ∈ zmembers (fail_job processingState "w" "boom" true 9).pending) ∨
     ((lookupJob (fail_job processingState "w" "boom" true 9) "w").map
          ProcessingJob.status = some "failed" ∧
       "w" ∈ zmembers (fail_job processingState "w" "boom" true 9).failed)) :=
  ⟨by decide,
   C8_fail_job_records_outcome processingState "w" "boom" true 9
     processingRecord (by decide) (by decide)⟩

/-- C9 counterexample: a job of original type "other" that the classifier
successfully reclassifies as "medical_report" (a structured type) still
gets no entity-extraction step: the reclassified type is ignored. -/

theorem C9_counterexample_reclassified_ignored :
    ((process_document reclassifyAI otherTypeJob 0).classification).map
        ClassifyResult.document_type = some "medical_report" ∧
    "medical_report" ∈ structuredTypes ∧
    (process_document reclassifyAI otherTypeJob 0).entity_extraction = none ∧
    "entity_extraction" ∉
      (process_document reclassifyAI otherTypeJob 0).steps_completed :=
  ⟨by decide, by decide, by decide, by decide⟩

/-- C9 amended: the entity-extraction step runs exactly when the ORIGINAL
`job.document_type` is in the structured-medical-document set
{medical_report, prescription, laboratory_result}; the classification
output is never consulted for this decision. -/

theorem C9_entity_step_original_type (ai : AIService) (job : ProcessingJob)
    (now : Nat) :
    ((process_document ai job now).entity_extraction ≠ none ↔
      job.document_type ∈ structuredTypes) ∧
    ("entity_extraction" ∈ (process_document ai job now).steps_completed ↔
      job.document_type ∈ structuredTypes) := by
  by_cases h : job.document_type ∈ structuredTypes <;>
    by_cases hP : job.document_type = "other" ∨ job.document_type = "unknown" <;>
      simp [process_document, h, hP]

/-- C10: when the pending index is non-empty but the job record for its
highest-priority id is absent, `get_next_job` still removes that id from
pending, stamps it into the processing index at the current time, and
returns no job — leaving an in-flight entry with no backing record. -/

theorem C10_expired_head_dequeue (st : QState) (now : Nat) (j : String)
    (s : Int) (h : zmin st.pending = some (j, s))
    (hmiss : lookupJob st j = none) :
    (get_next_job st now).1 = none ∧
    j ∉ zmembers (get_next_job st now).2.pending ∧
    zscore (get_next_job st now).2.processing j = some (now : Int) ∧
    lookupJob (get_next_job st now).2 j = none := by
  rw [get_next_job_missing st now j s h hmiss]
  refine ⟨rfl, ?_, ?_, hmiss⟩
  · exact not_mem_zmembers_zrem st.pending j
  · exact zscore_zadd_self st.processing j (now : Int)

/-- Witness for C10: a pending entry "x" with no record is claimed into the
processing index and no job is returned. -/

theorem C10_expired_head_dequeue_witness :
    zmin expiredPendingState.pending = some ("x", -1) ∧
    lookupJob expiredPendingState "x" = none ∧
    (get_next_job expiredPendingState 9).1 = none ∧
    zscore (get_next_job expiredPendingState 9).2.processing "x"
        = some (9 : Int) :=
  ⟨by decide, by decide,
   (C10_expired_head_dequeue expiredPendingState 9 "x" (-1) (by decide)
      (by decide)).1,
   (C10_expired_head_dequeue expiredPendingState 9 "x" (-1) (by decide)
      (by decide)).2.2.1⟩

/-- Confidence aggregation over all-zero step confidences is zero. -/

theorem calculate_confidence_score_zeros (c? : Option ClassifyResult)
    (e : ExtractResult) (n? : Option EntityResult) (q : QualityResult)
    (hc : ∀ x, c? = some x → x.confidence = 0) (he : e.confidence = 0)
    (hn : ∀ x, n? = some x → x.confidence = 0) (hq : q.quality_score = 0) :
    calculate_confidence_score c? e n? q = 0 := by
  cases c? with
  | none =>
    cases n? with
    | none => simp [calculate_confidence_score, he, hq]
    | some b => simp [calculate_confidence_score, he, hq, hn b rfl]
  | some a =>
    cases n? with
    | none => simp [calculate_confidence_score, he, hq, hc a rfl]
    | some b =>
      simp [calculate_confidence_score, he, hq, hc a rfl, hn b rfl]

theorem quality_raw_zero : quality_raw_score ("" : String).length 0 = 0 := by
  norm_num [quality_raw_score, qmin, String.length]

/-- Quality assessment of the zero-confidence empty-text fallback that
`_extract_text` produces when the inference call errors. -/

theorem assess_quality_error_fallback (e : String) :
    (assess_quality { text := "", confidence := 0, page_count := 1,
                      error := some e }).assessment = "poor" ∧
    (assess_quality { text := "", confidence := 0, page_count := 1,
                      error := some e }).quality_score = 0 := by
  constructor
  · show (if quality_raw_score ("" : String).length (0 : ℚ) ≥ 7 / 10
        then "good"
        else if quality_raw_score ("" : String).length (0 : ℚ) ≥ 1 / 2
        then "fair" else "poor") = "poor"
    rw [quality_raw_zero]
    norm_num
  · show round4 (quality_raw_score ("" : String).length (0 : ℚ)) = 0
    rw [quality_raw_zero, round4_zero]

/-- C5: with an inference endpoint on which every call errors, a job whose
source artifact is reachable still completes: the final record has status
"completed" and carries a result with overall confidence 0, empty extracted
text, quality assessment "poor", and an empty entity list whenever the
entity step ran — inference errors alone never drive the job to failed. -/

theorem C5_pipeline_degradation (e1 : String → String)
    (e2 e3 : String → String → String) (st : QState)
    (job job0 : ProcessingJob) (now : Nat) (hWF : WFStore st)
    (hrec : lookupJob st job.job_id = some job0) :
    (lookupJob (process_job st (erroringAI e1 e2 e3) job now) job.job_id).map
        ProcessingJob.status = some "completed" ∧
    ((lookupJob (process_job st (erroringAI e1 e2 e3) job now)
        job.job_id).bind ProcessingJob.result).map ProcResult.confidence_score
        = some 0 ∧
    ((lookupJob (process_job st (erroringAI e1 e2 e3) job now)
        job.job_id).bind ProcessingJob.result).map
        (fun r => r.text_extraction.text) = some "" ∧
    ((lookupJob (process_job st (erroringAI e1 e2 e3) job now)
        job.job_id).bind ProcessingJob.result).map
        (fun r => r.quality_assessment.assessment) = some "poor" ∧
    ((((lookupJob (process_job st (erroringAI e1 e2 e3) job now)
          job.job_id).bind ProcessingJob.result).bind
          ProcResult.entity_extraction).map EntityResult.entities = none ∨
     (((lookupJob (process_job st (erroringAI e1 e2 e3) job now)
          job.job_id).bind ProcessingJob.result).bind
          ProcResult.entity_extraction).map EntityResult.entities
        = some []) := by
  have hpj : process_job st (erroringAI e1 e2 e3) job now
      = complete_job st job.job_id
          (some (process_document (erroringAI e1 e2 e3) job now)) now := rfl
  have hlk : lookupJob (complete_job st job.job_id
        (some (process_document (erroringAI e1 e2 e3) job now)) now)
        job.job_id
      = some { job0 with
                 status := "completed", completed_at := some now,
                 result := some (process_document (erroringAI e1 e2 e3)
                   job now) } := by
    rw [complete_job_present st job.job_id _ now job0 hrec, lookupJob_saveJob,
      if_pos (lookupJob_job_id hWF hrec).symm]
  have hQs : (process_document (erroringAI e1 e2 e3) job
      now).quality_assessment.quality_score = 0 :=
    (assess_quality_error_fallback (e2 job.file_path job.document_type)).2
  have hQa : (process_document (erroringAI e1 e2 e3) job
      now).quality_assessment.assessment = "poor" :=
    (assess_quality_error_fallback (e2 job.file_path job.document_type)).1
  have hconf : (process_document (erroringAI e1 e2 e3) job
      now).confidence_score = 0 := by
    refine calculate_confidence_score_zeros _ _ _ _ ?_ rfl ?_ hQs
    · intro x hx
      by_cases hP : job.document_type = "other" ∨ job.document_type = "unknown"
      · rw [if_pos hP] at hx
        rw [← Option.some.inj hx]
        rfl
      · rw [if_neg hP] at hx
        cases hx
    · intro x hx
      by_cases hP : job.document_type ∈ structuredTypes
      · rw [if_pos hP] at hx
        rw [← Option.some.inj hx]
        rfl
      · rw [if_neg hP] at hx
        cases hx
  rw [hpj, hlk]
  refine ⟨rfl, ?_, rfl, ?_, ?_⟩
  · show some (process_document (erroringAI e1 e2 e3) job
      now).confidence_score = some (0 : ℚ)
    rw [hconf]
  · show some (process_document (erroringAI e1 e2 e3) job
      now).quality_assessment.assessment = some "poor"
    rw [hQa]
  · by_cases hP : job.document_type ∈ structuredTypes
    · right
      show ((if job.document_type ∈ structuredTypes
          then some (extract_medical_entities (erroringAI e1 e2 e3)
            (extract_text (erroringAI e1 e2 e3) job.file_path
              job.document_type).text job.document_type)
          else none).map EntityResult.entities) = some []
      rw [if_pos hP]
      rfl
    · left
      show ((if job.document_type ∈ structuredTypes
          then some (extract_medical_entities (erroringAI e1 e2 e3)
            (extract_text (erroringAI e1 e2 e3) job.file_path
              job.document_type).text job.document_type)
          else none).map EntityResult.entities) = none
      rw [if_neg hP]
      rfl

/-- Witness for C5: the tracked job "w" processed against an always-erroring
endpoint ends completed. -/

theorem C5_pipeline_degradation_witness :
    lookupJob processingState "w" = some processingRecord ∧
    (lookupJob (process_job processingState
        (erroringAI (fun _ => "x") (fun _ _ => "x") (fun _ _ => "x"))
        processingRecord 9) "w").map ProcessingJob.status
      = some "completed" :=
  ⟨by decide,
   (C5_pipeline_degradation (fun _ => "x") (fun _ _ => "x") (fun _ _ => "x")
      processingState processingRecord processingRecord 9 (by decide)
      (by decide)).1⟩

/-- C6 counterexample: at text length 2000 and extraction confidence 0 the
source computes quality score 1 and assessment "good" — the text-length
term is not clamped before weighting — while the formula the claim states
yields 1/2 (assessment "fair"). -/

theorem C6_counterexample_no_inner_clamp :
    (assess_quality longLowConfExtraction).assessment = "good" ∧
    (assess_quality longLowConfExtraction).quality_score = 1 ∧
    spec_quality_score 2000 0 = 1 / 2 ∧
    (1 : ℚ) ≠ 1 / 2 := by
  have hraw : quality_raw_score longLowConfExtraction.text.length
      longLowConfExtraction.confidence = 1 := by
    norm_num [quality_raw_score, qmin, longLowConfExtraction, string_mk_length]
  refine ⟨?_, ?_, ?_, by norm_num⟩
  · show (if quality_raw_score longLowConfExtraction.text.length
        longLowConfExtraction.confidence ≥ 7 / 10 then "good"
      else if quality_raw_score longLowConfExtraction.text.length
        longLowConfExtraction.confidence ≥ 1 / 2 then "fair"
      else "poor") = "good"
    rw [hraw]
    norm_num
  · show round4 (quality_raw_score longLowConfExtraction.text.length
        longLowConfExtraction.confidence) = 1
    rw [hraw, round4_one]
  · norm_num [spec_quality_score, qmin]

/-- C6 amended: the quality step computes
score = min(1, (len / 1000) * 0.5 + c * 0.5) with NO inner clamp on
len / 1000; it stores the score rounded to 4 decimal places, buckets
good / fair / poor on the unrounded score at the 0.7 and 0.5 thresholds,
and flags an issue exactly when len < 100 or c < 0.7. -/

theorem C6_quality_assessment_formula (er : ExtractResult) :
    (assess_quality er).quality_score
        = round4 (quality_raw_score er.text.length er.confidence) ∧
    ((assess_quality er).assessment = "good" ↔
      quality_raw_score er.text.length er.confidence ≥ 7 / 10) ∧
    ((assess_quality er).assessment = "fair" ↔
      (quality_raw_score er.text.length er.confidence ≥ 1 / 2 ∧
       ¬ quality_raw_score er.text.length er.confidence ≥ 7 / 10)) ∧
    ((assess_quality er).assessment = "poor" ↔
      ¬ quality_raw_score er.text.length er.confidence ≥ 1 / 2) ∧
    ((assess_quality er).quality_issues ≠ [] ↔
      (er.text.length < 100 ∨ er.confidence < 7 / 10)) := by
  have hA : (assess_quality er).assessment
      = (if quality_raw_score er.text.length er.confidence ≥ 7 / 10
         then "good"
         else if quality_raw_score er.text.length er.confidence ≥ 1 / 2
         then "fair" else "poor") := rfl
  have hI : (assess_quality er).quality_issues
      = ((if er.text.length < 100 then ["Low text content"] else []) ++
         (if er.confidence < 7 / 10 then ["Low extraction confidence"]
          else [])) := rfl
  refine ⟨rfl, ?_, ?_, ?_, ?_⟩
  · rw [hA]
    by_cases h1 : quality_raw_score er.text.length er.confidence ≥ 7 / 10
    · rw [if_pos h1]
      exact iff_of_true rfl h1
    · rw [if_neg h1]
      by_cases h2 : quality_raw_score er.text.length er.confidence ≥ 1 / 2
      · rw [if_pos h2]
        exact iff_of_false (by decide) h1
      · rw [if_neg h2]
        exact iff_of_false (by decide) h1
  · rw [hA]
    by_cases h1 : quality_raw_score er.text.length er.confidence ≥ 7 / 10
    · rw [if_pos h1]
      exact iff_of_false (by decide) (fun hc => hc.2 h1)
    · rw [if_neg h1]
      by_cases h2 : quality_raw_score er.text.length er.confidence ≥ 1 / 2
      · rw [if_pos h2]
        exact iff_of_true rfl ⟨h2, h1⟩
      · rw [if_neg h2]
        exact iff_of_false (by decide) (fun hc => h2 hc.1)
  · rw [hA]
    by_cases h1 : quality_raw_score er.text.length er.confidence ≥ 7 / 10
    · rw [if_pos h1]
      refine iff_of_false (by decide) (fun hc => hc ?_)
      exact le_trans (by norm_num) h1
    · rw [if_neg h1]
      by_cases h2 : quality_raw_score er.text.length er.confidence ≥ 1 / 2
      · rw [if_pos h2]
        exact iff_of_false (by decide) (fun hc => hc h2)
      · rw [if_neg h2]
        exact iff_of_true rfl h2
  · rw [hI]
    by_cases hl : er.text.length < 100 <;>
      by_cases hcf : er.confidence < 7 / 10 <;>
        simp [hl, hcf]

end MDUS

